import Mathlib

/-!
Verification of `aw-notify` (`src/aw_notify/main.py`, `src/aw_notify/utils.py`)
against its natural-language specification.

Modelling conventions (shallow embedding):
* `datetime` values are seconds since the Unix epoch (`Int`); timezone is UTC.
* `timedelta` values are signed seconds (`Int`).
* `datetime.replace(hour=0, minute=0, second=0, microsecond=0)` on a UTC
  datetime floors the timestamp to the enclosing UTC day.
* Side effects (calls to `notify`, network queries) are modelled as explicit
  return values / function parameters.
-/

/-- Python's builtin `min` over a list. Python raises `ValueError` on an empty
list; the `[]` case below is a junk value and every use in this development is
guarded by a nonemptiness hypothesis. -/
def pymin : List Int → Int
  | [] => 0
  | x :: xs => xs.foldl min x

/-- List-level core of Python's `str.strip()`: drop leading and trailing
whitespace. Only the plain space character ever occurs in the strings built by
this program, so stripping spaces is the faithful model. -/
def stripData (l : List Char) : List Char :=
  ((l.dropWhile (fun c => c == ' ')).reverse.dropWhile (fun c => c == ' ')).reverse

/-- Python's `str.strip()`. -/
def pyStrip (s : String) : String :=
  ⟨stripData s.data⟩

/-- `to_hms` from `main.py` (lines 193-206): format a duration.
`duration.days` is the floor of the duration in days (can be negative) and
`duration.seconds` is the nonnegative sub-day remainder, exactly as for
Python's `timedelta`. The seconds component is appended only when the string
is still empty (i.e. days, hours and minutes are all zero). -/
def to_hms (duration : Int) : String :=
  let days : Int := duration.ediv 86400
  let hours : Nat := (duration.emod 86400).toNat / 3600
  let remainder : Nat := (duration.emod 86400).toNat % 3600
  let minutes : Nat := remainder / 60
  let seconds : Nat := remainder % 60
  let s : String := ""
  let s : String := if 0 < days then s ++ Nat.repr days.toNat ++ "d " else s
  let s : String := if 0 < hours then s ++ Nat.repr hours ++ "h " else s
  let s : String := if 0 < minutes then s ++ Nat.repr minutes ++ "m " else s
  let s : String := if s.length = 0 then s ++ Nat.repr seconds ++ "s " else s
  pyStrip s

/-- `to_hms` from `utils.py`: identical to the one in `main.py` except that it
never emits a days component (it only looks at `duration.seconds`, the sub-day
remainder). -/
def Utils.to_hms (duration : Int) : String :=
  let hours : Nat := (duration.emod 86400).toNat / 3600
  let remainder : Nat := (duration.emod 86400).toNat % 3600
  let minutes : Nat := remainder / 60
  let seconds : Nat := remainder % 60
  let s : String := ""
  let s : String := if 0 < hours then s ++ Nat.repr hours ++ "h " else s
  let s : String := if 0 < minutes then s ++ Nat.repr minutes ++ "m " else s
  let s : String := if s.length = 0 then s ++ Nat.repr seconds ++ "s " else s
  pyStrip s

/-- `time_offset = timedelta(hours=4)` (main.py line 114). -/
def time_offset : Int := 4 * 3600

/-- `TIME_OFFSET = timedelta(hours=4)` (main.py line 29). -/
def TIME_OFFSET : Int := 4 * 3600

/-- A desktop notification, i.e. the `(title, msg)` pair passed to `notify`. -/
structure Notification where
  title : String
  message : String
deriving DecidableEq

/-- State of a `CategoryAlert` (main.py lines 241-322). -/
structure CategoryAlert where
  category : String
  label : String
  thresholds : List Int
  max_triggered : Int
  time_spent : Int
  last_check : Int
  positive : Bool
deriving DecidableEq

/-- `CategoryAlert.__init__`: `self.label = label or category or "All"`
(Python `or` takes the first non-empty string); `max_triggered` and
`time_spent` start at zero and `last_check` at the epoch sentinel. -/
def CategoryAlert.init (category : String) (thresholds : List Int)
    (label : Option String) (positive : Bool) : CategoryAlert :=
  { category := category
    label :=
      match label with
      | some l => if l ≠ "" then l else if category ≠ "" then category else "All"
      | none => if category ≠ "" then category else "All"
    thresholds := thresholds
    max_triggered := 0
    time_spent := 0
    last_check := 0
    positive := positive }

/-- `thresholds_untriggered` (main.py lines 266-268):
`[t for t in self.thresholds if t > self.max_triggered]`. -/
def CategoryAlert.thresholds_untriggered (a : CategoryAlert) : List Int :=
  a.thresholds.filter (fun t => decide (a.max_triggered < t))

/-- `time_to_next_threshold` (main.py lines 270-283). The several
`datetime.now(timezone.utc)` calls in the source are modelled by a single
`now` (they are intended to be the same instant). -/
def CategoryAlert.time_to_next_threshold (a : CategoryAlert) (now : Int) : Int :=
  if a.thresholds_untriggered = [] then
    let day_end : Int := now - now.emod 86400
    let day_end : Int := if day_end < now then day_end + 86400 else day_end
    let time_to_next_day : Int := day_end - now + time_offset
    time_to_next_day + pymin a.thresholds
  else
    pymin a.thresholds_untriggered - a.time_spent

/-- `update` (main.py lines 285-299). The result of
`get_time().get(self.category, timedelta())` is modelled by the mapping
`cat_time` (the time-spent cache's current value). -/
def CategoryAlert.update (a : CategoryAlert) (now : Int)
    (cat_time : String → Option Int) : CategoryAlert :=
  let time_to_threshold := a.time_to_next_threshold now
  if a.last_check + time_to_threshold < now then
    { a with time_spent := (cat_time a.category).getD 0, last_check := now }
  else
    a

/-- The `for thres in sorted(...) ... break` loop of `check`
(main.py lines 301-317): the first threshold `≤ time_spent` is recorded in
`max_triggered`, one notification is emitted unless `silent`, and the loop
breaks. -/
def CategoryAlert.checkLoop (a : CategoryAlert) (silent : Bool) :
    List Int → CategoryAlert × Option Notification
  | [] => (a, none)
  | thres :: rest =>
    if thres ≤ a.time_spent then
      ({ a with max_triggered := thres },
        if silent then none
        else
          let thres_str := to_hms thres
          let spent_str := to_hms a.time_spent
          some
            { title := if a.positive then "Goal reached!" else "Time spent"
              message := a.label ++ ": " ++ thres_str ++
                (if thres_str ≠ spent_str then "  (" ++ spent_str ++ ")" else "") })
    else
      a.checkLoop silent rest

/-- `check` (main.py lines 301-317): scan the untriggered thresholds in
descending order (`sorted(..., reverse=True)`; Python's sort is stable and a
stable sort's output is unique, so any stable sort models it). -/
def CategoryAlert.check (a : CategoryAlert) (silent : Bool) :
    CategoryAlert × Option Notification :=
  a.checkLoop silent (a.thresholds_untriggered.insertionSort (fun x y => y ≤ x))

/-- State of one `cache_ttl`-decorated function (main.py lines 119-144):
a per-key last refresh time (`defaultdict` whose default is the epoch, i.e. 0)
and a per-key cached value (`none` = key absent). Keys are the tuples of call
arguments. -/
structure TTLCache (K V : Type) where
  last_update : K → Int
  cache : K → Option V

/-- The state both dictionaries start in. -/
def TTLCache.start (K V : Type) : TTLCache K V :=
  { last_update := fun _ => 0, cache := fun _ => none }

/-- One call through the `_cache_ttl` wrapper (main.py lines 133-140):
if `now - last_update[key] > ttl` the wrapped function `f` is invoked and both
dictionaries are updated, otherwise the stored value is served. Returns the
value returned (`cache[cache_key]`, `none` modelling the impossible
`KeyError`), the new state, and whether `f` was invoked. -/
def TTLCache.call {K V : Type} [DecidableEq K] (ttl : Int) (f : K → V)
    (st : TTLCache K V) (now : Int) (k : K) : Option V × TTLCache K V × Bool :=
  if ttl < now - st.last_update k then
    let st' : TTLCache K V :=
      { last_update := fun x => if x = k then now else st.last_update x
        cache := fun x => if x = k then some (f k) else st.cache x }
    (st'.cache k, st', true)
  else
    (st.cache k, st, false)

/-- `get_time` (main.py lines 147-148) is `@cache_ttl(60)`-wrapped; its body
queries the ActivityWatch server (an external collaborator), modelled as the
parameter `f`. The cache key is the `date` argument (`none` = default). -/
def get_time_call {V : Type} (f : Option Int → V) (st : TTLCache (Option Int) V)
    (now : Int) (date : Option Int) : Option V × TTLCache (Option Int) V × Bool :=
  TTLCache.call 60 f st now date

/-- The `sorted(zip(categories, time_spent), key=lambda x: x[1], reverse=True)`
of `send_checkin` (main.py lines 396-418): stable sort, descending by time.
Durations here are nonnegative (sums of event durations), hence `Nat`. -/
def checkin_sorted (categories : List String) (cat_time : String → Nat) :
    List (String × Nat) :=
  (categories.zip (categories.map cat_time)).insertionSort (fun x y => y.2 ≤ x.2)

/-- `top_categories` of `send_checkin` (main.py lines 406-412): keep the
entries with `t > 0.02 * cat_time["All"]` (the float factor `0.02` is modelled
as the exact rational `1/50`, i.e. `50 * t > all`) and format each kept
duration with `to_hms`. -/
def top_categories (categories : List String) (cat_time : String → Nat) :
    List (String × String) :=
  ((checkin_sorted categories cat_time).filter
      (fun x => decide ((cat_time "All" : Int) < 50 * (x.2 : Int)))).map
    (fun x => (x.1, to_hms (x.2 : Int)))

/-- An event of the `aw-watcher-afk` bucket, as used by `get_active_status`. -/
structure AFKEvent where
  timestamp : Int
  duration : Int
  status : String
deriving DecidableEq

/-- `get_active_status` (main.py lines 427-448), given the most recent event of
the afk bucket (`aw.get_events(..., limit=1)` returns the latest event, or
nothing if the bucket is empty). `none` is Python's `None` ("unknown"). -/
def get_active_status (now : Int) (latest : Option AFKEvent) : Option Bool :=
  match latest with
  | none => none
  | some event =>
    let event_end := event.timestamp + event.duration
    if event_end < now - 5 * 60 then none
    else some (event.status == "not-afk")

/-- One post-sleep iteration of the hourly check-in loop (main.py lines
454-478): whether `send_checkin()` is reached. `Except.error` models an
exception raised by `get_active_status` (caught, loop continues). -/
def hourly_checkin_sends (active : Except String (Option Bool)) : Bool :=
  match active with
  | .error _ => false
  | .ok none => false
  | .ok (some false) => false
  | .ok (some true) => true

/-- One iteration of the new-day loop body (main.py lines 488-510):
`day = (now - TIME_OFFSET).date()` is the logical day (floor in whole days
since the epoch); on a day change the notification is sent and `last_day`
advanced only when the status is definitively active (`if active:`); on
`None` (`elif active is None`) and on `False` nothing happens. Returns the new
`last_day` and whether the notification was sent. -/
def new_day_step (last_day : Int) (now : Int) (active : Option Bool) :
    Int × Bool :=
  let day := (now - TIME_OFFSET).ediv 86400
  if day ≠ last_day then
    match active with
    | some true => (day, true)
    | some false => (last_day, false)
    | none => (last_day, false)
  else
    (last_day, false)

/-- Spec-side definition for C3 (not from the source): "the time remaining
until the next occurrence of the daily offset boundary", i.e. the least
`d > 0` such that `now + d` lies on a boundary (a time `≡ TIME_OFFSET`
modulo 24 hours). -/
def spec_next_rollover (now : Int) : Int :=
  let r := (time_offset - now).emod 86400
  if r = 0 then 86400 else r

/-- Space-join a list of strings (no leading/trailing separator). -/
def spaceJoin : List String → String
  | [] => ""
  | [p] => p
  | p :: rest => p ++ " " ++ spaceJoin rest

/-- Spec-side definition for the amended C4 (not from the source): the
space-joined string of the nonzero components among days, hours and minutes;
when all three are zero, the seconds component (`"0s"` for a zero duration). -/
def hms_amended_spec (duration : Int) : String :=
  let days : Int := duration.ediv 86400
  let hours : Nat := (duration.emod 86400).toNat / 3600
  let remainder : Nat := (duration.emod 86400).toNat % 3600
  let minutes : Nat := remainder / 60
  let seconds : Nat := remainder % 60
  let parts : List String :=
    (if 0 < days then [Nat.repr days.toNat ++ "d"] else []) ++
    (if 0 < hours then [Nat.repr hours ++ "h"] else []) ++
    (if 0 < minutes then [Nat.repr minutes ++ "m"] else [])
  spaceJoin (if parts = [] then [Nat.repr seconds ++ "s"] else parts)

/-- The scenario alert of the spec: category "Work", thresholds
[15 min, 30 min, 1 h], `time_spent` jumped from 0 to 45 min, nothing
triggered yet. -/
def workAlert : CategoryAlert :=
  { CategoryAlert.init "Work" [900, 1800, 3600] none false with time_spent := 2700 }

/-- A concrete alert whose only threshold (15 min) is already triggered. -/
def doneAlert : CategoryAlert :=
  { category := "x", label := "x", thresholds := [900], max_triggered := 900,
    time_spent := 1000, last_check := 0, positive := false }

/-! ## Lemmas about `check` -/

lemma checkLoop_no_hit (a : CategoryAlert) (silent : Bool) :
    ∀ l : List Int, (∀ t ∈ l, ¬ t ≤ a.time_spent) →
      a.checkLoop silent l = (a, none) := by
  intro l
  induction l with
  | nil => intro _; rfl
  | cons x rest ih =>
    intro h
    have hx : ¬ x ≤ a.time_spent := h x (List.mem_cons_self x rest)
    simp only [CategoryAlert.checkLoop, if_neg hx]
    exact ih fun t ht => h t (List.mem_cons_of_mem x ht)

lemma checkLoop_hit (a : CategoryAlert) (silent : Bool) :
    ∀ l : List Int, l.Pairwise (fun x y => y ≤ x) →
      (∃ t ∈ l, t ≤ a.time_spent) →
      ∃ m, (a.checkLoop silent l).1 = { a with max_triggered := m } ∧
        m ∈ l ∧ m ≤ a.time_spent ∧
        (∀ t ∈ l, t ≤ a.time_spent → t ≤ m) ∧
        (silent = false → ((a.checkLoop silent l).2).isSome = true) := by
  intro l
  induction l with
  | nil => rintro _ ⟨t, ht, _⟩; exact absurd ht (List.not_mem_nil t)
  | cons x rest ih =>
    rintro hp ⟨t0, ht0, hle0⟩
    obtain ⟨hx, hrest⟩ := List.pairwise_cons.1 hp
    by_cases hxs : x ≤ a.time_spent
    · refine ⟨x, ?_, List.mem_cons_self x rest, hxs, ?_, ?_⟩
      · simp only [CategoryAlert.checkLoop, if_pos hxs]
      · intro t ht _
        rcases List.mem_cons.1 ht with h | h
        · exact le_of_eq h
        · exact hx t h
      · intro hsil
        simp only [CategoryAlert.checkLoop, if_pos hxs, hsil]
        simp
    · have ht0' : t0 ∈ rest := by
        rcases List.mem_cons.1 ht0 with h | h
        · exact absurd (h ▸ hle0) hxs
        · exact h
      obtain ⟨m, hm1, hm2, hm3, hm4, hm5⟩ := ih hrest ⟨t0, ht0', hle0⟩
      have hstep : a.checkLoop silent (x :: rest) = a.checkLoop silent rest := by
        simp only [CategoryAlert.checkLoop, if_neg hxs]
      refine ⟨m, hstep ▸ hm1, List.mem_cons_of_mem x hm2, hm3, ?_, hstep ▸ hm5⟩
      intro t ht hts
      rcases List.mem_cons.1 ht with h | h
      · exact absurd (h ▸ hts) hxs
      · exact hm4 t h hts

lemma sorted_untriggered (a : CategoryAlert) :
    (a.thresholds_untriggered.insertionSort (fun x y => y ≤ x)).Pairwise
      (fun x y => y ≤ x) := by
  haveI : IsTotal ℤ (fun x y : ℤ => y ≤ x) := ⟨fun u v => le_total v u⟩
  haveI : IsTrans ℤ (fun x y : ℤ => y ≤ x) := ⟨fun u v w h1 h2 => le_trans h2 h1⟩
  exact List.sorted_insertionSort _ _

lemma check_no_hit (a : CategoryAlert) (silent : Bool)
    (h : ∀ t ∈ a.thresholds_untriggered, ¬ t ≤ a.time_spent) :
    a.check silent = (a, none) := by
  unfold CategoryAlert.check
  exact checkLoop_no_hit a silent _
    fun t ht => h t ((List.mem_insertionSort _).1 ht)

lemma check_hit (a : CategoryAlert) (silent : Bool)
    (h : ∃ t ∈ a.thresholds_untriggered, t ≤ a.time_spent) :
    ∃ m, (a.check silent).1 = { a with max_triggered := m } ∧
      m ∈ a.thresholds_untriggered ∧ m ≤ a.time_spent ∧
      (∀ t ∈ a.thresholds_untriggered, t ≤ a.time_spent → t ≤ m) ∧
      (silent = false → ((a.check silent).2).isSome = true) := by
  obtain ⟨t0, ht0, hle0⟩ := h
  obtain ⟨m, hm1, hm2, hm3, hm4, hm5⟩ :=
    checkLoop_hit a silent _ (sorted_untriggered a)
      ⟨t0, (List.mem_insertionSort _).2 ht0, hle0⟩
  exact ⟨m, hm1, (List.mem_insertionSort _).1 hm2, hm3,
    fun t ht hts => hm4 t ((List.mem_insertionSort _).2 ht) hts, hm5⟩

/-! ## Claim theorems -/

/-- C1: a single `check()` call fires at most one notification: among the
untriggered thresholds the largest one `≤ time_spent` becomes the new
`max_triggered` and is notified (unless silent); every other satisfied
untriggered threshold is no longer untriggered afterwards, with no separate
notification (the loop breaks after the single `notify`). Scenario: thresholds
[15m, 30m, 1h], `time_spent` = 45m, nothing triggered: exactly one
notification fires, for 30m, and only 1h stays untriggered. -/
theorem check_fires_at_most_highest :
    (∀ (a : CategoryAlert) (silent : Bool),
      (∃ t ∈ a.thresholds_untriggered, t ≤ a.time_spent) →
      ∃ m, (a.check silent).1 = { a with max_triggered := m } ∧
        m ∈ a.thresholds_untriggered ∧ m ≤ a.time_spent ∧
        (∀ t ∈ a.thresholds_untriggered, t ≤ a.time_spent → t ≤ m) ∧
        (silent = false → ((a.check silent).2).isSome = true) ∧
        (∀ t ∈ a.thresholds_untriggered, t ≤ a.time_spent →
          t ∉ ((a.check silent).1).thresholds_untriggered)) ∧
    ((workAlert.check false).1.max_triggered = 1800 ∧
      (workAlert.check false).2 =
        some { title := "Time spent", message := "Work: 30m  (45m)" } ∧
      (workAlert.check false).1.thresholds_untriggered = [3600]) := by
  constructor
  · intro a silent h
    obtain ⟨m, hm1, hm2, hm3, hm4, hm5⟩ := check_hit a silent h
    refine ⟨m, hm1, hm2, hm3, hm4, hm5, ?_⟩
    intro t ht hts
    rw [hm1]
    simp only [CategoryAlert.thresholds_untriggered, List.mem_filter,
      decide_eq_true_eq, not_and, not_lt]
    exact fun _ => hm4 t ht hts
  · exact ⟨by decide, by decide, by decide⟩

/-- Witness for C1: the scenario alert, with `silent = true`. -/
theorem check_fires_at_most_highest_witness :
    ∃ m, (workAlert.check true).1 = { workAlert with max_triggered := m } ∧
      m ∈ workAlert.thresholds_untriggered ∧ m ≤ workAlert.time_spent ∧
      (∀ t ∈ workAlert.thresholds_untriggered,
        t ≤ workAlert.time_spent → t ≤ m) ∧
      (true = false → ((workAlert.check true).2).isSome = true) ∧
      (∀ t ∈ workAlert.thresholds_untriggered, t ≤ workAlert.time_spent →
        t ∉ ((workAlert.check true).1).thresholds_untriggered) :=
  check_fires_at_most_highest.1 workAlert true ⟨1800, by decide, by decide⟩

/-- C2: `check()` is idempotent: immediately re-running `check` (with
`time_spent` unchanged) fires no notification and changes nothing — a
triggered threshold never re-fires. -/
theorem check_idempotent :
    ∀ (a : CategoryAlert) (s1 s2 : Bool),
      ((a.check s1).1).check s2 = ((a.check s1).1, none) := by
  intro a s1 s2
  by_cases h : ∃ t ∈ a.thresholds_untriggered, t ≤ a.time_spent
  · obtain ⟨m, hm1, hm2, hm3, hm4, _⟩ := check_hit a s1 h
    have hmax_lt : a.max_triggered < m := by
      simp only [CategoryAlert.thresholds_untriggered, List.mem_filter,
        decide_eq_true_eq] at hm2
      exact hm2.2
    rw [hm1]
    apply check_no_hit
    intro t ht hle
    simp only [CategoryAlert.thresholds_untriggered, List.mem_filter,
      decide_eq_true_eq] at ht
    have htu : t ∈ a.thresholds_untriggered := by
      simp only [CategoryAlert.thresholds_untriggered, List.mem_filter,
        decide_eq_true_eq]
      exact ⟨ht.1, lt_trans hmax_lt ht.2⟩
    have hcontr : t ≤ m := hm4 t htu hle
    have : m < t := ht.2
    omega
  · push_neg at h
    have e1 : a.check s1 = (a, none) :=
      check_no_hit a s1 fun t ht => not_le.2 (h t ht)
    rw [e1]
    exact check_no_hit a s2 fun t ht => not_le.2 (h t ht)

/-- C3 (amended): if untriggered thresholds remain, `time_to_next_threshold`
is `min(untriggered) - time_spent` (possibly zero or negative); if none
remain, it is the time from `now` until the next UTC midnight (zero when `now`
is exactly midnight) plus the daily offset plus the smallest configured
threshold — not the time until the next occurrence of the offset boundary
itself, which differs for `now` strictly between midnight and the offset. -/
theorem time_to_next_threshold_spec :
    ∀ (a : CategoryAlert) (now : Int),
      (a.thresholds_untriggered ≠ [] →
        a.time_to_next_threshold now =
          pymin a.thresholds_untriggered - a.time_spent) ∧
      (a.thresholds_untriggered = [] →
        a.time_to_next_threshold now =
          (if now.emod 86400 = 0 then 0 else 86400 - now.emod 86400) +
            time_offset + pymin a.thresholds) := by
  intro a now
  constructor
  · intro h
    simp only [CategoryAlert.time_to_next_threshold, if_neg h]
  · intro h
    simp only [CategoryAlert.time_to_next_threshold, if_pos h, time_offset]
    have h0 : 0 ≤ now.emod 86400 := Int.emod_nonneg now (by norm_num)
    have h1 : now.emod 86400 < 86400 := Int.emod_lt_of_pos now (by norm_num)
    split_ifs <;> omega

/-- Witness for C3: one alert in each branch; `workAlert`'s next threshold is
overdue by 30 minutes (negative value = "due now"), `doneAlert` waits for
tomorrow. -/
theorem time_to_next_threshold_spec_witness :
    workAlert.time_to_next_threshold 0 = -1800 ∧
    doneAlert.time_to_next_threshold 3600 = 82800 + time_offset + 900 := by
  constructor
  · have h := (time_to_next_threshold_spec workAlert 0).1 (by decide)
    rw [h]; decide
  · have h := (time_to_next_threshold_spec doneAlert 3600).2 (by decide)
    rw [h]; decide

/-- Counterexample for C3 as stated: at `now` = 1am UTC (3600s past midnight,
inside the (midnight, offset) window), the code waits until *tomorrow's*
offset boundary (98100s = 27h15m with the 15-min threshold), while "time
remaining until the next occurrence of the daily offset boundary plus the
smallest threshold" is 11700s (3h15m): today's 4am boundary is only 10800s
away. -/
theorem time_to_next_threshold_cex :
    doneAlert.thresholds_untriggered = [] ∧
    doneAlert.time_to_next_threshold 3600 = 98100 ∧
    spec_next_rollover 3600 + pymin doneAlert.thresholds = 11700 ∧
    (98100 : Int) ≠ 11700 := by decide

/-- C5: `update()` refreshes `time_spent` from the time-spent cache and sets
`last_check := now` exactly when `now > last_check + time_to_next_threshold`;
otherwise it changes nothing (all fields preserved). -/
theorem update_refresh_iff :
    ∀ (a : CategoryAlert) (now : Int) (cat_time : String → Option Int),
      a.thresholds ≠ [] →
      ((a.last_check + a.time_to_next_threshold now < now →
          (a.update now cat_time).time_spent = (cat_time a.category).getD 0 ∧
          (a.update now cat_time).last_check = now ∧
          (a.update now cat_time).category = a.category ∧
          (a.update now cat_time).label = a.label ∧
          (a.update now cat_time).thresholds = a.thresholds ∧
          (a.update now cat_time).max_triggered = a.max_triggered ∧
          (a.update now cat_time).positive = a.positive) ∧
        (¬ (a.last_check + a.time_to_next_threshold now < now) →
          a.update now cat_time = a)) := by
  intro a now ct _
  simp only [CategoryAlert.update]
  constructor
  · intro h
    rw [if_pos h]
    exact ⟨rfl, rfl, rfl, rfl, rfl, rfl, rfl⟩
  · intro h
    rw [if_neg h]

/-- Witness for C5: `workAlert` is overdue at `now = 10` and refreshes to the
cache's value; `doneAlert` at `now = 5` is not due and stays unchanged. -/
theorem update_refresh_iff_witness :
    (workAlert.update 10 (fun _ => some 500)).time_spent = 500 ∧
    doneAlert.update 5 (fun _ => some 500) = doneAlert := by
  constructor
  · have h :=
      ((update_refresh_iff workAlert 10 (fun _ => some 500)) (by decide)).1
        (by decide)
    simpa using h.1
  · exact ((update_refresh_iff doneAlert 5 (fun _ => some 500)) (by decide)).2
      (by decide)

/-- C6: a `cache_ttl` wrapper serves the stored value for a key without
invoking the wrapped function while the elapsed time since that key's last
refresh does not exceed the TTL, and invokes it afresh (updating value and
timestamp) when it does exceed it. Scenario for `get_time` (TTL 60s): after a
refreshing call at t=100, a call at t=160 serves the identical cached value
with no second query, and a call at t=161 queries afresh. -/
theorem cache_ttl_serves_until_expiry :
    (∀ (K V : Type) [DecidableEq K] (ttl : Int) (f : K → V)
        (st : TTLCache K V) (now : Int) (k : K) (v : V),
        st.cache k = some v →
        (now - st.last_update k ≤ ttl →
          TTLCache.call ttl f st now k = (some v, st, false)) ∧
        (ttl < now - st.last_update k →
          (TTLCache.call ttl f st now k).1 = some (f k) ∧
          (TTLCache.call ttl f st now k).2.2 = true ∧
          ((TTLCache.call ttl f st now k).2.1).last_update k = now ∧
          ((TTLCache.call ttl f st now k).2.1).cache k = some (f k))) ∧
    ((get_time_call (fun _ => 7) (TTLCache.start (Option Int) Nat)
        100 none).2.2 = true ∧
      (get_time_call (fun _ => 7)
        (get_time_call (fun _ => 7) (TTLCache.start (Option Int) Nat)
          100 none).2.1 160 none).1 = some 7 ∧
      (get_time_call (fun _ => 7)
        (get_time_call (fun _ => 7) (TTLCache.start (Option Int) Nat)
          100 none).2.1 160 none).2.2 = false ∧
      (get_time_call (fun _ => 7)
        (get_time_call (fun _ => 7)
          (get_time_call (fun _ => 7) (TTLCache.start (Option Int) Nat)
            100 none).2.1 160 none).2.1 161 none).2.2 = true) := by
  constructor
  · intro K V _ ttl f st now k v hv
    constructor
    · intro h
      unfold TTLCache.call
      rw [if_neg (not_lt.2 h), hv]
    · intro h
      unfold TTLCache.call
      rw [if_pos h]
      exact ⟨by simp, rfl, by simp, by simp⟩
  · exact ⟨by decide, by decide, by decide, by decide⟩

/-- Witness for C6: a key refreshed at t=50 and read at t=100 (elapsed 50s
≤ 60s) is served from the cache without invoking the function. -/
theorem cache_ttl_serves_until_expiry_witness :
    TTLCache.call 60 (fun _ : Nat => (3 : Nat))
        { last_update := fun _ => 50, cache := fun _ => some 9 } 100 0 =
      (some 9, { last_update := fun _ => 50, cache := fun _ => some 9 },
        false) :=
  (cache_ttl_serves_until_expiry.1 Nat Nat 60 (fun _ => 3)
    { last_update := fun _ => 50, cache := fun _ => some 9 } 100 0 9 rfl).1
    (by norm_num)

/-- C8: `get_active_status` returns unknown (`none`) exactly when there is no
event or the most recent event ended more than 5 minutes before `now`;
otherwise it returns whether that event's status is "not-afk". -/
theorem get_active_status_unknown_iff :
    ∀ (now : Int) (latest : Option AFKEvent),
      (get_active_status now latest = none ↔
        latest = none ∨
          ∃ e, latest = some e ∧ 300 < now - (e.timestamp + e.duration)) ∧
      (∀ e, latest = some e → now - (e.timestamp + e.duration) ≤ 300 →
        get_active_status now latest = some (e.status == "not-afk")) := by
  intro now latest
  cases latest with
  | none => simp [get_active_status]
  | some e =>
    constructor
    · simp only [get_active_status]
      split_ifs with hc
      · simp only [true_iff]
        exact Or.inr ⟨e, rfl, by omega⟩
      · constructor
        · intro h
          exact absurd h (by simp)
        · rintro (h | ⟨e', he', hgt⟩)
          · exact absurd h (by simp)
          · injection he' with he'
            subst he'
            exact absurd hgt (by omega)
    · intro e' he hle
      injection he with he
      subst he
      simp only [get_active_status]
      rw [if_neg (by omega)]

/-- Witness for C8: a 5-minute-old event is still fresh enough, so the status
is reported (active, since the event is "not-afk"). -/
theorem get_active_status_unknown_iff_witness :
    get_active_status 300 (some (AFKEvent.mk 0 0 "not-afk")) = some true := by
  have h := (get_active_status_unknown_iff 300
    (some (AFKEvent.mk 0 0 "not-afk"))).2
    (AFKEvent.mk 0 0 "not-afk") rfl (by norm_num)
  rw [h]
  decide

/-- C9: neither periodic loop acts on an unknown activity status: the hourly
check-in reaches `send_checkin()` exactly when the status is definitively
active, and a new-day iteration with unknown status neither advances the
stored logical day nor sends the notification. -/
theorem loops_ignore_unknown_status :
    (∀ e : Except String (Option Bool),
      hourly_checkin_sends e = true ↔ e = .ok (some true)) ∧
    (∀ last_day now : Int, new_day_step last_day now none = (last_day, false)) := by
  constructor
  · intro e
    rcases e with err | val
    · simp [hourly_checkin_sends]
    · rcases val with _ | b
      · simp [hourly_checkin_sends]
      · cases b <;> simp [hourly_checkin_sends]
  · intro last_day now
    simp only [new_day_step]
    split_ifs <;> rfl

lemma zip_map_self {α β : Type} (l : List α) (g : α → β) :
    l.zip (l.map g) = l.map fun c => (c, g c) := by
  induction l with
  | nil => rfl
  | cons a t ih => simp [ih]

/-- C7 (amended): `send_checkin`'s `top_categories` lists exactly the
considered categories whose time spent exceeds 2% of the "All" total
(`t > 0.02 * cat_time["All"]`), each formatted with `to_hms`, in descending
order of time spent. (There is no cap on the number of entries.) -/
theorem checkin_lists_exceeding :
    ∀ (categories : List String) (cat_time : String → Nat),
      (∀ c s, (c, s) ∈ top_categories categories cat_time ↔
        (c ∈ categories ∧ (cat_time "All" : Int) < 50 * (cat_time c : Int) ∧
          s = to_hms (cat_time c : Int))) ∧
      ((checkin_sorted categories cat_time).filter
          (fun x => decide ((cat_time "All" : Int) < 50 * (x.2 : Int)))).Pairwise
        (fun x y => y.2 ≤ x.2) := by
  intro cats ct
  constructor
  · intro c s
    unfold top_categories checkin_sorted
    rw [zip_map_self]
    constructor
    · intro hmem
      obtain ⟨x, hx, hx_eq⟩ := List.mem_map.1 hmem
      obtain ⟨hx_mem, hx_p⟩ := List.mem_filter.1 hx
      obtain ⟨c', hc', rfl⟩ :=
        List.mem_map.1 ((List.mem_insertionSort _).1 hx_mem)
      obtain ⟨rfl, rfl⟩ := Prod.mk.injEq .. ▸ hx_eq
      exact ⟨hc', by simpa using hx_p, rfl⟩
    · rintro ⟨hc, hp, rfl⟩
      refine List.mem_map.2 ⟨(c, ct c), List.mem_filter.2 ⟨?_, ?_⟩, rfl⟩
      · exact (List.mem_insertionSort _).2 (List.mem_map.2 ⟨c, hc, rfl⟩)
      · simpa using hp
  · haveI : IsTotal (String × Nat) (fun x y => y.2 ≤ x.2) :=
      ⟨fun u v => le_total v.2 u.2⟩
    haveI : IsTrans (String × Nat) (fun x y => y.2 ≤ x.2) :=
      ⟨fun u v w h1 h2 => le_trans h2 h1⟩
    exact (List.sorted_insertionSort _ _).filter _

/-- Counterexample for C7's cap clause: `top_categories` has no cap — no
uniform bound on its length exists. For any proposed cap, `cap + 1` categories
all exceeding 2% of the total produce `cap + 1` entries. -/
theorem checkin_no_cap_cex :
    ¬ ∃ cap : Nat, ∀ (categories : List String) (cat_time : String → Nat),
        (top_categories categories cat_time).length ≤ cap := by
  rintro ⟨cap, h⟩
  have hlen := h (List.replicate (cap + 1) "x") (fun _ => 1)
  have heq : (top_categories (List.replicate (cap + 1) "x")
      (fun _ => 1)).length = cap + 1 := by
    unfold top_categories checkin_sorted
    rw [zip_map_self, List.map_replicate]
    have hfil :
        ((List.replicate (cap + 1) ("x", (1 : Nat))).insertionSort
            (fun x y => y.2 ≤ x.2)).filter
          (fun x => decide ((((fun _ => 1) "All" : Nat) : Int) <
            50 * (x.2 : Int))) =
        (List.replicate (cap + 1) ("x", (1 : Nat))).insertionSort
          (fun x y => y.2 ≤ x.2) := by
      apply List.filter_eq_self.mpr
      intro x hx
      have hx' := List.eq_of_mem_replicate ((List.mem_insertionSort _).1 hx)
      subst hx'
      decide
    rw [hfil, List.length_map]
    rw [(List.perm_insertionSort _ _).length_eq, List.length_replicate]
  omega

/-! ## String/digit infrastructure for the duration formatter -/

lemma digitChar_isDigit : ∀ n : Nat, n < 10 → (Nat.digitChar n).isDigit = true := by
  decide

lemma toDigitsCore_all_digits :
    ∀ (fuel n : Nat) (acc : List Char), (∀ c ∈ acc, c.isDigit = true) →
      ∀ c ∈ Nat.toDigitsCore 10 fuel n acc, c.isDigit = true := by
  intro fuel
  induction fuel with
  | zero => intro n acc hacc c hc; exact hacc c hc
  | succ fuel ih =>
    intro n acc hacc c hc
    simp only [Nat.toDigitsCore] at hc
    have hacc' : ∀ x ∈ Nat.digitChar (n % 10) :: acc, x.isDigit = true := by
      intro x hx
      rcases List.mem_cons.1 hx with rfl | hx'
      · exact digitChar_isDigit _ (Nat.mod_lt n (by norm_num))
      · exact hacc x hx'
    by_cases h10 : n / 10 = 0
    · rw [if_pos h10] at hc
      exact hacc' c hc
    · rw [if_neg h10] at hc
      exact ih (n / 10) _ hacc' c hc

lemma toDigitsCore_ne_nil_of_acc :
    ∀ (fuel n : Nat) (acc : List Char), acc ≠ [] →
      Nat.toDigitsCore 10 fuel n acc ≠ [] := by
  intro fuel
  induction fuel with
  | zero => intro n acc hacc; exact hacc
  | succ fuel ih =>
    intro n acc hacc
    simp only [Nat.toDigitsCore]
    by_cases h10 : n / 10 = 0
    · rw [if_pos h10]; exact List.cons_ne_nil _ _
    · rw [if_neg h10]; exact ih _ _ (List.cons_ne_nil _ _)

lemma repr_data_digits (n : Nat) : ∀ c ∈ (Nat.repr n).data, c.isDigit = true :=
  toDigitsCore_all_digits (n + 1) n [] (by intro c hc; cases hc)

lemma repr_data_ne_nil (n : Nat) : (Nat.repr n).data ≠ [] := by
  show Nat.toDigitsCore 10 (n + 1) n [] ≠ []
  simp only [Nat.toDigitsCore]
  by_cases h10 : n / 10 = 0
  · rw [if_pos h10]; exact List.cons_ne_nil _ _
  · rw [if_neg h10]; exact toDigitsCore_ne_nil_of_acc _ _ _ (List.cons_ne_nil _ _)

lemma isDigit_ne_space {c : Char} (h : c.isDigit = true) : c ≠ ' ' := by
  intro hc
  subst hc
  exact absurd h (by decide)

lemma isDigit_ne_d {c : Char} (h : c.isDigit = true) : c ≠ 'd' := by
  intro hc
  subst hc
  exact absurd h (by decide)

lemma mem_dropWhile_of_ne {c : Char} {l : List Char} {p : Char → Bool}
    (hc : p c = false) (h : c ∈ l) : c ∈ l.dropWhile p := by
  induction l with
  | nil => cases h
  | cons a t ih =>
    by_cases ha : p a = true
    · rw [List.dropWhile_cons_of_pos ha]
      rcases List.mem_cons.1 h with rfl | h'
      · rw [ha] at hc; cases hc
      · exact ih h'
    · rw [List.dropWhile_cons_of_neg ha]
      exact h

lemma mem_stripData_of_ne {c : Char} {l : List Char} (hc : c ≠ ' ')
    (h : c ∈ l) : c ∈ stripData l := by
  have hcb : (c == ' ') = false := by simpa using hc
  unfold stripData
  exact List.mem_reverse.2 (mem_dropWhile_of_ne hcb
    (List.mem_reverse.2 (mem_dropWhile_of_ne hcb h)))

lemma stripData_subset {l : List Char} : ∀ c ∈ stripData l, c ∈ l := by
  intro c hc
  unfold stripData at hc
  exact List.dropWhile_subset _
    (List.mem_reverse.1 (List.dropWhile_subset _ (List.mem_reverse.1 hc)))

lemma stripData_append_space (c : Char) (t : List Char) (hc : c ≠ ' ')
    (hl : (c :: t).getLast (List.cons_ne_nil c t) ≠ ' ') :
    stripData ((c :: t) ++ [' ']) = c :: t := by
  have hrev : (c :: (t ++ [' '])).reverse = ' ' :: (c :: t).reverse := by
    rw [List.reverse_cons, List.reverse_append, List.reverse_cons]
    simp
  unfold stripData
  rw [List.cons_append, List.dropWhile_cons_of_neg (by simpa using hc), hrev,
    List.dropWhile_cons_of_pos (by rfl)]
  have hne : (c :: t).reverse ≠ [] := by simp
  obtain ⟨b, u, hbu⟩ := List.exists_cons_of_ne_nil hne
  have hcl : c :: t = u.reverse ++ [b] := by
    rw [← List.reverse_reverse (c :: t), hbu, List.reverse_cons]
  have h1 : (c :: t).getLast? = some b := by
    rw [hcl]
    exact List.getLast?_concat _
  have h2 : (c :: t).getLast? =
      some ((c :: t).getLast (List.cons_ne_nil c t)) :=
    List.getLast?_eq_getLast _ _
  have hb : b ≠ ' ' := by
    rw [h1] at h2
    injection h2 with h2
    rw [h2]
    exact hl
  rw [hbu, List.dropWhile_cons_of_neg (by simpa using hb), ← hbu,
    List.reverse_reverse]

lemma pyStrip_append_space (S : String) {c : Char} {t : List Char}
    (hdata : S.data = c :: t) (hc : c ≠ ' ')
    (hl : S.data.getLast? ≠ some ' ') :
    pyStrip (S ++ " ") = S := by
  apply String.ext
  show stripData (S ++ " ").data = S.data
  rw [String.data_append, hdata]
  have hsp : (" " : String).data = [' '] := rfl
  rw [hsp]
  apply stripData_append_space c t hc
  intro hlast
  apply hl
  rw [hdata, List.getLast?_eq_getLast (c :: t) (List.cons_ne_nil c t), hlast]

lemma getLast?_no_space (p : String) (hp : p.data ≠ [])
    (ha : ∀ c ∈ p.data, c ≠ ' ') : p.data.getLast? ≠ some ' ' := by
  rw [List.getLast?_eq_getLast p.data hp]
  intro h
  injection h with h
  exact ha _ (List.getLast_mem hp) h

lemma pyStrip_parts_one (p1 : String) (h1 : p1.data ≠ [])
    (ha1 : ∀ c ∈ p1.data, c ≠ ' ') :
    pyStrip (p1 ++ " ") = p1 := by
  obtain ⟨c, t, hct⟩ := List.exists_cons_of_ne_nil h1
  exact pyStrip_append_space p1 hct
    (ha1 c (hct ▸ List.mem_cons_self c t)) (getLast?_no_space p1 h1 ha1)

lemma pyStrip_parts_two (p1 p2 : String) (h1 : p1.data ≠ [])
    (h2 : p2.data ≠ []) (ha1 : ∀ c ∈ p1.data, c ≠ ' ')
    (ha2 : ∀ c ∈ p2.data, c ≠ ' ') :
    pyStrip (p1 ++ " " ++ p2 ++ " ") = p1 ++ " " ++ p2 := by
  obtain ⟨c, t, hct⟩ := List.exists_cons_of_ne_nil h1
  have hdata : (p1 ++ " " ++ p2).data = c :: (t ++ ' ' :: p2.data) := by
    simp [String.data_append, hct]
  have hlast : (p1 ++ " " ++ p2).data.getLast? = p2.data.getLast? := by
    rw [String.data_append]
    exact List.getLast?_append_of_ne_nil _ h2
  apply pyStrip_append_space _ hdata (ha1 c (hct ▸ List.mem_cons_self c t))
  rw [hlast]
  exact getLast?_no_space p2 h2 ha2

lemma pyStrip_parts_three (p1 p2 p3 : String) (h1 : p1.data ≠ [])
    (_h2 : p2.data ≠ []) (h3 : p3.data ≠ [])
    (ha1 : ∀ c ∈ p1.data, c ≠ ' ') (_ha2 : ∀ c ∈ p2.data, c ≠ ' ')
    (ha3 : ∀ c ∈ p3.data, c ≠ ' ') :
    pyStrip (p1 ++ " " ++ p2 ++ " " ++ p3 ++ " ") = p1 ++ " " ++ p2 ++ " " ++ p3 := by
  obtain ⟨c, t, hct⟩ := List.exists_cons_of_ne_nil h1
  have hdata : (p1 ++ " " ++ p2 ++ " " ++ p3).data =
      c :: (t ++ ' ' :: (p2.data ++ ' ' :: p3.data)) := by
    simp [String.data_append, hct]
  have hlast : (p1 ++ " " ++ p2 ++ " " ++ p3).data.getLast? =
      p3.data.getLast? := by
    rw [String.data_append]
    exact List.getLast?_append_of_ne_nil _ h3
  apply pyStrip_append_space _ hdata (ha1 c (hct ▸ List.mem_cons_self c t))
  rw [hlast]
  exact getLast?_no_space p3 h3 ha3

lemma sdata_d : ("d" : String).data = ['d'] := rfl

lemma sdata_h : ("h" : String).data = ['h'] := rfl

lemma sdata_m : ("m" : String).data = ['m'] := rfl

lemma sdata_s : ("s" : String).data = ['s'] := rfl

lemma sdata_dsp : ("d " : String).data = ['d', ' '] := rfl

lemma sdata_hsp : ("h " : String).data = ['h', ' '] := rfl

lemma sdata_msp : ("m " : String).data = ['m', ' '] := rfl

lemma sdata_ssp : ("s " : String).data = ['s', ' '] := rfl

lemma sdata_sp : (" " : String).data = [' '] := rfl

lemma sdata_empty : ("" : String).data = [] := rfl

lemma length_ne_zero_right (s t : String) (h : t.data ≠ []) :
    (s ++ t).length ≠ 0 := by
  show (s ++ t).data.length ≠ 0
  rw [String.data_append, List.length_append]
  have ht : t.data.length ≠ 0 := fun hz => h (List.length_eq_zero.1 hz)
  omega

lemma piece_ne_nil (n : Nat) (u : String) : (Nat.repr n ++ u).data ≠ [] := by
  rw [String.data_append]
  intro h
  exact repr_data_ne_nil n (List.append_eq_nil.1 h).1

lemma piece_no_space (n : Nat) (u : String) (hu : ∀ c ∈ u.data, c ≠ ' ') :
    ∀ c ∈ (Nat.repr n ++ u).data, c ≠ ' ' := by
  intro c hc
  rw [String.data_append] at hc
  rcases List.mem_append.1 hc with h | h
  · exact isDigit_ne_space (repr_data_digits n c h)
  · exact hu c h

/-- C4 (amended): `to_hms` returns the space-joined, trimmed string of the
nonzero components among days, hours and minutes; the seconds component
appears only when days, hours and minutes are all zero (giving "0s" for a
zero duration). In particular 3605 seconds formats as "1h", not "1h 5s". -/
theorem to_hms_formats_components : ∀ d : Int, to_hms d = hms_amended_spec d := by
  intro d
  simp only [to_hms, hms_amended_spec]
  set D : Int := d.ediv 86400 with hDdef
  set H : Nat := (d.emod 86400).toNat / 3600 with hHdef
  set R : Nat := (d.emod 86400).toNat % 3600 with hRdef
  set M : Nat := R / 60 with hMdef
  set S0 : Nat := R % 60 with hS0def
  by_cases hD : 0 < D <;> by_cases hH : 0 < H <;> by_cases hM : 0 < M
  · -- TTT
    simp only [if_pos hD, if_pos hH, if_pos hM]
    rw [if_neg (length_ne_zero_right _ _ (by decide))]
    rw [if_neg (by simp)]
    simp only [spaceJoin, List.cons_append, List.nil_append, List.singleton_append]
    have harg : "" ++ Nat.repr D.toNat ++ "d " ++ Nat.repr H ++ "h " ++ Nat.repr M ++ "m " =
        Nat.repr D.toNat ++ "d" ++ " " ++ (Nat.repr H ++ "h") ++ " " ++ (Nat.repr M ++ "m") ++ " " := by
      apply String.ext
      simp [String.data_append, sdata_dsp, sdata_hsp, sdata_msp, sdata_d,
        sdata_h, sdata_m, sdata_sp, sdata_empty]
    rw [harg, pyStrip_parts_three _ _ _ (piece_ne_nil _ _) (piece_ne_nil _ _)
      (piece_ne_nil _ _) (piece_no_space _ _ (by decide))
      (piece_no_space _ _ (by decide)) (piece_no_space _ _ (by decide))]
    apply String.ext
    simp [String.data_append, sdata_d, sdata_h, sdata_m, sdata_sp]
  · -- days, hours; no minutes
    simp only [if_pos hD, if_pos hH, if_neg hM]
    rw [if_neg (length_ne_zero_right _ _ (by decide))]
    rw [if_neg (by simp)]
    simp only [spaceJoin, List.cons_append, List.nil_append, List.append_nil,
      List.singleton_append]
    have harg : "" ++ Nat.repr D.toNat ++ "d " ++ Nat.repr H ++ "h " =
        Nat.repr D.toNat ++ "d" ++ " " ++ (Nat.repr H ++ "h") ++ " " := by
      apply String.ext
      simp [String.data_append, sdata_dsp, sdata_hsp, sdata_d, sdata_h,
        sdata_sp, sdata_empty]
    rw [harg, pyStrip_parts_two _ _ (piece_ne_nil _ _) (piece_ne_nil _ _)
      (piece_no_space _ _ (by decide)) (piece_no_space _ _ (by decide))]
  · -- days, minutes; no hours
    simp only [if_pos hD, if_neg hH, if_pos hM]
    rw [if_neg (length_ne_zero_right _ _ (by decide))]
    rw [if_neg (by simp)]
    simp only [spaceJoin, List.cons_append, List.nil_append, List.append_nil,
      List.singleton_append]
    have harg : "" ++ Nat.repr D.toNat ++ "d " ++ Nat.repr M ++ "m " =
        Nat.repr D.toNat ++ "d" ++ " " ++ (Nat.repr M ++ "m") ++ " " := by
      apply String.ext
      simp [String.data_append, sdata_dsp, sdata_msp, sdata_d, sdata_m,
        sdata_sp, sdata_empty]
    rw [harg, pyStrip_parts_two _ _ (piece_ne_nil _ _) (piece_ne_nil _ _)
      (piece_no_space _ _ (by decide)) (piece_no_space _ _ (by decide))]
  · -- days only
    simp only [if_pos hD, if_neg hH, if_neg hM]
    rw [if_neg (length_ne_zero_right _ _ (by decide))]
    rw [if_neg (by simp)]
    simp only [spaceJoin, List.cons_append, List.nil_append, List.append_nil,
      List.singleton_append]
    have harg : "" ++ Nat.repr D.toNat ++ "d " = Nat.repr D.toNat ++ "d" ++ " " := by
      apply String.ext
      simp [String.data_append, sdata_dsp, sdata_d, sdata_sp, sdata_empty]
    rw [harg, pyStrip_parts_one _ (piece_ne_nil _ _) (piece_no_space _ _ (by decide))]
  · -- hours, minutes; no days
    simp only [if_neg hD, if_pos hH, if_pos hM]
    rw [if_neg (length_ne_zero_right _ _ (by decide))]
    rw [if_neg (by simp)]
    simp only [spaceJoin, List.cons_append, List.nil_append, List.append_nil,
      List.singleton_append]
    have harg : "" ++ Nat.repr H ++ "h " ++ Nat.repr M ++ "m " =
        Nat.repr H ++ "h" ++ " " ++ (Nat.repr M ++ "m") ++ " " := by
      apply String.ext
      simp [String.data_append, sdata_hsp, sdata_msp, sdata_h, sdata_m,
        sdata_sp, sdata_empty]
    rw [harg, pyStrip_parts_two _ _ (piece_ne_nil _ _) (piece_ne_nil _ _)
      (piece_no_space _ _ (by decide)) (piece_no_space _ _ (by decide))]
  · -- hours only
    simp only [if_neg hD, if_pos hH, if_neg hM]
    rw [if_neg (length_ne_zero_right _ _ (by decide))]
    rw [if_neg (by simp)]
    simp only [spaceJoin, List.cons_append, List.nil_append, List.append_nil,
      List.singleton_append]
    have harg : "" ++ Nat.repr H ++ "h " = Nat.repr H ++ "h" ++ " " := by
      apply String.ext
      simp [String.data_append, sdata_hsp, sdata_h, sdata_sp, sdata_empty]
    rw [harg, pyStrip_parts_one _ (piece_ne_nil _ _) (piece_no_space _ _ (by decide))]
  · -- minutes only
    simp only [if_neg hD, if_neg hH, if_pos hM]
    rw [if_neg (length_ne_zero_right _ _ (by decide))]
    rw [if_neg (by simp)]
    simp only [spaceJoin, List.cons_append, List.nil_append, List.append_nil,
      List.singleton_append]
    have harg : "" ++ Nat.repr M ++ "m " = Nat.repr M ++ "m" ++ " " := by
      apply String.ext
      simp [String.data_append, sdata_msp, sdata_m, sdata_sp, sdata_empty]
    rw [harg, pyStrip_parts_one _ (piece_ne_nil _ _) (piece_no_space _ _ (by decide))]
  · -- all zero: seconds fallback
    simp only [if_neg hD, if_neg hH, if_neg hM]
    rw [if_pos (show ("" : String).length = 0 from rfl)]
    rw [if_pos (show ([] ++ [] ++ [] : List String) = [] from rfl)]
    simp only [spaceJoin]
    have harg : "" ++ Nat.repr S0 ++ "s " = Nat.repr S0 ++ "s" ++ " " := by
      apply String.ext
      simp [String.data_append, sdata_ssp, sdata_s, sdata_sp, sdata_empty]
    rw [harg, pyStrip_parts_one _ (piece_ne_nil _ _) (piece_no_space _ _ (by decide))]

/-- Counterexample for C4 as stated: the seconds component is not shown
alongside other nonzero components — 3605 seconds ("1h0m5s") formats as "1h",
not "1h 5s" (while 0 still formats as "0s"). -/
theorem to_hms_cex :
    to_hms 3605 = "1h" ∧ to_hms 3605 ≠ "1h 5s" ∧ to_hms 0 = "0s" := by
  refine ⟨by decide, ?_, by decide⟩
  intro h
  exact absurd ((by decide : to_hms 3605 = "1h") ▸ h) (by decide)

lemma mem_pyStrip {c : Char} {s : String} (h : c ∈ (pyStrip s).data) :
    c ∈ s.data :=
  stripData_subset _ h

lemma to_hms_mem_d (n : Int) (h : 86400 ≤ n) : 'd' ∈ (to_hms n).data := by
  have hD : 0 < n.ediv 86400 := show 0 < n / 86400 by omega
  simp only [to_hms]
  rw [if_pos hD]
  split_ifs <;>
    · apply mem_stripData_of_ne (by decide)
      simp [String.data_append, sdata_dsp, sdata_hsp, sdata_msp, sdata_ssp,
        sdata_empty]

lemma utils_to_hms_no_d (n : Int) : 'd' ∉ (Utils.to_hms n).data := by
  intro hc
  simp only [Utils.to_hms] at hc
  have h2 := mem_pyStrip hc
  split_ifs at h2 <;>
    simp [String.data_append, sdata_hsp, sdata_msp, sdata_ssp, sdata_empty]
      at h2 <;>
    first
    | exact isDigit_ne_d (repr_data_digits _ _ h2) rfl
    | (rcases h2 with h2 | h2 <;>
        first
        | exact isDigit_ne_d (repr_data_digits _ _ h2) rfl
        | (rcases h2 with h2 | h2 <;>
            exact isDigit_ne_d (repr_data_digits _ _ h2) rfl))

/-- C10: the two `to_hms` implementations agree on every nonnegative duration
strictly below one day; for durations of a day or more they differ — main.py's
version prefixes a days component (whose digits-and-'d' prefix survives the
trim), while utils.py's version formats only the sub-day remainder and never
emits the character 'd' at all. -/
theorem to_hms_agree_iff_below_one_day :
    (∀ n : Int, 0 ≤ n → n < 86400 → to_hms n = Utils.to_hms n) ∧
    (∀ n : Int, 86400 ≤ n → to_hms n ≠ Utils.to_hms n) := by
  constructor
  · intro n h0 hlt
    simp only [to_hms, Utils.to_hms]
    have hzero : n.ediv 86400 = 0 := Int.ediv_eq_zero_of_lt h0 hlt
    rw [hzero, if_neg (lt_irrefl (0 : Int))]
  · intro n h heq
    have hmem := to_hms_mem_d n h
    rw [heq] at hmem
    exact utils_to_hms_no_d n hmem

/-- Witness for C10: 1h 1m 1s agrees across both implementations; 1d 1h 1m 1s
does not. -/
theorem to_hms_agree_iff_below_one_day_witness :
    to_hms 3661 = Utils.to_hms 3661 ∧ to_hms 90061 ≠ Utils.to_hms 90061 :=
  ⟨to_hms_agree_iff_below_one_day.1 3661 (by norm_num) (by norm_num),
    to_hms_agree_iff_below_one_day.2 90061 (by norm_num)⟩

/-- Witness for C2: re-checking the scenario alert after its 30m threshold
fired changes nothing and emits nothing. -/
theorem check_idempotent_witness :
    ((workAlert.check true).1).check false = ((workAlert.check true).1, none) :=
  check_idempotent workAlert true false

/-- Witness for C4 (amended) at the spec's own example input, 3605 seconds. -/
theorem to_hms_formats_components_witness :
    to_hms 3605 = hms_amended_spec 3605 :=
  to_hms_formats_components 3605

/-- Witness for C7: with "All" at 100 and "A" at 90 (more than 2% of 100),
"A" is listed, formatted by `to_hms`. -/
theorem checkin_lists_exceeding_witness :
    ("A", to_hms ((90 : Nat) : Int)) ∈ top_categories ["All", "A"]
      (fun c => if c = "A" then 90 else 100) :=
  ((checkin_lists_exceeding ["All", "A"]
      (fun c => if c = "A" then 90 else 100)).1
    "A" (to_hms ((90 : Nat) : Int))).mpr ⟨by decide, by decide, rfl⟩

/-- Witness for C9: a new-day iteration at a concrete instant with unknown
status keeps the stored day at 0 and sends nothing. -/
theorem loops_ignore_unknown_status_witness :
    new_day_step 0 90000 none = (0, false) :=
  loops_ignore_unknown_status.2 0 90000
